import Mathlib

/-!
Verification of `bskypromo_reposter.py` (Bluesky promo reposter bot).

Shallow embedding conventions:
* Timestamps are integers (seconds); `datetime.fromisoformat` is abstracted
  as an oracle `Env.parse : String → Option Int`; `now_dt()` is `Env.now`,
  `now_iso()` is the string `Env.nowIso`.  `timedelta(hours=h)` is `3600*h`
  and `timedelta(days=d)` is `86400*d`; the epoch sentinel
  `datetime(1970,1,1)` is `0`.
* Duck-typed attribute access `getattr(x, "f", None)` is modelled with
  `Option` fields; Python truthiness of an optional string (`None` and `""`
  are falsy) is `truthyS`; an optional object is truthy iff present; an
  optional list attribute is truthy iff present and non-empty (`truthyL`).
* The atproto client is an oracle record `Remote`; a remote call that may
  raise returns an `Option` result (`none` = exception).  Committed remote
  mutations (successful create/delete calls) are accumulated in a
  `WriteAction` trace.
* Python `set`s are modelled as duplicate-free lists (`addSet` inserts if
  absent); only membership of these sets is observable in the claims.
-/

/-- Timestamps in seconds (the embedding of `datetime` values). -/
abbrev Time := Int

/-- Python truthiness of an optional string: `None` and `""` are falsy. -/
def truthyS (o : Option String) : Bool :=
  match o with
  | none => false
  | some s => s ≠ ""

/-- Python truthiness of an optional list attribute: falsy when absent or empty. -/
def truthyL (o : Option (List Unit)) : Bool :=
  match o with
  | none => false
  | some l => ¬ l.isEmpty

/-- Python `set.add`: append if not already present (membership-faithful model). -/
def addSet (l : List String) (x : String) : List String :=
  if x ∈ l then l else l ++ [x]

/-- Python set union `a | b`, as a fold of `addSet` (membership-faithful). -/
def unionSet (a b : List String) : List String :=
  b.foldl addSet a

/-- Python `list(dict.fromkeys(l))`: deduplicate keeping first occurrences. -/
def dedupKeepFirst : List String → List String
  | [] => []
  | x :: xs => x :: (dedupKeepFirst xs).filter (fun y => y ≠ x)

/-- Environment oracle for time-related externals of the script. -/
structure Env where
  /-- `datetime.fromisoformat` with the exception caught: `none` = unparseable. -/
  parse : String → Option Time
  /-- `now_dt()`. -/
  now : Time
  /-- `now_iso()`. -/
  nowIso : String

/-- `parse_dt(val)`: `None` for a falsy input, else the (fallible) ISO parse. -/
def parse_dt (env : Env) (val : String) : Option Time :=
  if val = "" then none else env.parse val

/-! ## Post / feed data model (duck-typed API responses) -/

/-- `embed.recordWithMedia.media`: the wrapped media object. -/
structure MediaObj where
  images : Option (List Unit) := none
  video : Option Unit := none
deriving DecidableEq

/-- `embed.recordWithMedia`. -/
structure RecordWithMedia where
  media : Option MediaObj := none
deriving DecidableEq

/-- A post record's embed descriptor; `external`/`record` are carried so that
link-card-only and quote embeds are representable (they bear no media fields). -/
structure EmbedObj where
  images : Option (List Unit) := none
  video : Option Unit := none
  recordWithMedia : Option RecordWithMedia := none
  external : Option Unit := none
  record : Option Unit := none
deriving DecidableEq

/-- `post.record`. -/
structure PostRecord where
  createdAt : Option String := none
  embed : Option EmbedObj := none
deriving DecidableEq

/-- `post.viewer` flags on the account's own feed. -/
structure ViewerFlags where
  repost : Option String := none
  like : Option String := none
deriving DecidableEq

/-- `post.author`. -/
structure AuthorObj where
  did : Option String := none
deriving DecidableEq

/-- A post as returned by the feed APIs. -/
structure Post where
  uri : Option String := none
  cid : Option String := none
  author : Option AuthorObj := none
  record : Option PostRecord := none
  indexedAt : Option String := none
  viewer : Option ViewerFlags := none
deriving DecidableEq

/-- One element of a feed response. -/
structure FeedItem where
  post : Option Post := none
deriving DecidableEq

/-- `app.bsky.feed.get_feed` response page. -/
structure FeedPage where
  feed : List FeedItem := []
  cursor : Option String := none
deriving DecidableEq

/-- `item.subject` of a list response. -/
structure ListSubject where
  did : Option String := none
deriving DecidableEq

/-- One element of `app.bsky.graph.get_list` items. -/
structure ListItem where
  subject : Option ListSubject := none
deriving DecidableEq

/-- `app.bsky.graph.get_list` response page. -/
structure ListPage where
  items : List ListItem := []
  cursor : Option String := none
deriving DecidableEq

/-! ## State model -/

/-- One entry of `state["reposts"]` (a JSON dict accessed with `.get`). -/
structure RepostEntry where
  post_uri : Option String := none
  post_cid : Option String := none
  repost_uri : Option String := none
  createdAt : Option String := none
deriving DecidableEq

/-- The in-memory bot state (the recognized keys of the state dict). -/
structure BotState where
  reposts : List RepostEntry := []
  seen_reposted : List String := []
  seen_liked : List String := []
deriving DecidableEq

/-- A committed remote write action (successful mutating call). -/
inductive WriteAction where
  | deleteRecord (repo collection rkey : String)
  | repost (uri cid : String)
  | like (uri cid : String)
deriving DecidableEq

/-- The atproto client as a deterministic oracle.  A call that can raise
returns an `Option` (`none` = exception, caught by the caller). -/
structure Remote where
  /-- `client.me.did`. -/
  meDid : String
  /-- `resolve_handle` → `out.did`; `none` = exception or missing field. -/
  resolveHandle : String → Option String
  /-- `get_list` for a list uri and cursor. -/
  getList : String → Option String → ListPage
  /-- `get_feed` for a feed uri, cursor and limit. -/
  getFeed : String → Option String → Nat → FeedPage
  /-- `get_author_feed` on own did with a limit; `none` = exception. -/
  getAuthorFeed : Nat → Option (List FeedItem)
  /-- `delete_record` success for (repo, collection, rkey). -/
  deleteRecord : String → String → String → Bool
  /-- `feed.repost.create` for (uri, cid): `none` = exception, otherwise
  `some out_uri` where `out_uri = getattr(out, "uri", None)`. -/
  repostCreate : String → String → Option (Option String)
  /-- `feed.like.create` for (uri, cid): `false` = exception. -/
  likeCreate : String → String → Bool

/-- The script's environment-derived configuration constants. -/
structure Config where
  username : Option String := none
  password : Option String := none
  feedLink : String := ""
  excludeListLink : String := ""
  maxPerRun : Nat := 100
  hoursBack : Int := 24
  cleanupDays : Int := 14
  feedMaxItems : Nat := 1000
  listMemberLimit : Nat := 500
  dupCheckAuthorFeedLimit : Nat := 100
  dupCheckCache : Nat := 4000

/-! ## Media filter and timestamps -/

/-- `has_media(record)`: image/video embeds, including `recordWithMedia`
wrapping media; faithful to the `getattr` truthiness chain of the source. -/
def has_media (record : PostRecord) : Bool :=
  match record.embed with
  | none => false
  | some embed =>
    if truthyL embed.images then true
    else if embed.video.isSome then true
    else
      match embed.recordWithMedia with
      | none => false
      | some rwm =>
        match rwm.media with
        | none => false
        | some media => truthyL media.images || media.video.isSome

/-- `robust_post_time(post)`: `record.createdAt` parse, else `indexedAt`
parse, else the epoch sentinel `0` (never `now`). -/
def robust_post_time (env : Env) (post : Post) : Time :=
  let created := match post.record with
    | some r => r.createdAt
    | none => none
  let dt := if truthyS created then parse_dt env (created.getD "") else none
  match dt with
  | some t => t
  | none =>
    let dt2 := if truthyS post.indexedAt then parse_dt env (post.indexedAt.getD "") else none
    match dt2 with
    | some t => t
    | none => 0

/-! ## Link normalization -/

/-- `list.startswith(prefix)` at character level (structural, so that the
kernel can evaluate it). -/
def listStartsWith : List Char → List Char → Bool
  | _, [] => true
  | [], _ :: _ => false
  | c :: cs, p :: ps => c = p && listStartsWith cs ps

/-- Python `s.startswith(pre)`. -/
def pyStartsWith (s pre : String) : Bool :=
  listStartsWith s.toList pre.toList

/-- Python `s.split("/")` at character level: every slash separates, empty
segments included. -/
def splitSlashAux : List Char → List (List Char)
  | [] => [[]]
  | c :: cs =>
    if c = '/' then [] :: splitSlashAux cs
    else
      match splitSlashAux cs with
      | [] => [[c]]
      | s :: rest => (c :: s) :: rest

/-- Python `s.split("/")`. -/
def pySplitSlash (s : String) : List String :=
  (splitSlashAux s.toList).map String.mk

/-- The character code, lowercased for ASCII letters (models `re.I`). -/
def lowerCode (c : Char) : Nat :=
  if 65 ≤ c.toNat ∧ c.toNat ≤ 90 then c.toNat + 32 else c.toNat

/-- ASCII case-insensitive equality of character lists. -/
def eqCaseInsensitive (a b : List Char) : Bool :=
  a.map lowerCode = b.map lowerCode

/-- `resolve_handle_to_did`: a `did:` actor is returned as-is, otherwise the
handle is looked up (exception / missing field → `none`). -/
def resolve_handle_to_did (remote : Remote) (actor : String) : Option String :=
  if pyStartsWith actor "did:" then some actor else remote.resolveHandle actor

/-- The regex `https://bsky\.app/profile/([^/]+)/<segment>/([^/?#]+)` with
`re.I` and `.match` (anchored at the start, trailing text allowed); returns
the two capture groups. -/
def matchProfileUrl (segment : String) (link : String) : Option (String × String) :=
  let pre := "https://bsky.app/profile/".toList
  let cs := link.toList
  if eqCaseInsensitive (cs.take pre.length) pre then
    let rest := cs.drop pre.length
    let actor := rest.takeWhile (fun c => decide (c ≠ '/'))
    if actor.isEmpty then none
    else
      let seg := ("/" ++ segment ++ "/").toList
      let rest2 := rest.drop actor.length
      if eqCaseInsensitive (rest2.take seg.length) seg then
        let ident := (rest2.drop seg.length).takeWhile
            (fun c => decide (c ≠ '/') && decide (c ≠ '?') && decide (c ≠ '#'))
        if ident.isEmpty then none else some (String.mk actor, String.mk ident)
      else none
  else none

/-- `normalize_list_uri`. -/
def normalize_list_uri (remote : Remote) (link : String) : Option String :=
  if link = "" then none
  else if pyStartsWith link "at://" then some link
  else
    match matchProfileUrl "lists" link with
    | none => none
    | some (actor, ident) =>
      match resolve_handle_to_did remote actor with
      | none => none
      | some did => some ("at://" ++ did ++ "/app.bsky.graph.list/" ++ ident)

/-- `normalize_feed_uri`. -/
def normalize_feed_uri (remote : Remote) (link : String) : Option String :=
  if link = "" then none
  else if pyStartsWith link "at://" then some link
  else
    match matchProfileUrl "feed" link with
    | none => none
    | some (actor, ident) =>
      match resolve_handle_to_did remote actor with
      | none => none
      | some did => some ("at://" ++ did ++ "/app.bsky.feed.generator/" ++ ident)

/-! ## Paged fetchers -/

/-- The inner `for it in out.items` loop of `fetch_list_members`: appends a
truthy `item.subject.did`, and after each item returns `members[:limit]`
early once `len(members) >= limit`.  `.error r` models the early `return r`,
`.ok ms` models falling off the end of the page. -/
def listCollect (limit : Nat) (members : List String) :
    List ListItem → Except (List String) (List String)
  | [] => .ok members
  | it :: rest =>
    let did := it.subject.bind ListSubject.did
    let members1 := if truthyS did then members ++ [did.getD ""] else members
    if limit ≤ members1.length then .error (members1.take limit)
    else listCollect limit members1 rest

/-- `fetch_list_members`'s unbounded `while True` paging loop, with explicit
fuel: `none` means the loop has not returned within `fuel` pages (the source
loop has no other exit than a falsy cursor or reaching `limit`). -/
def fetch_list_members (getList : String → Option String → ListPage)
    (listUri : String) (limit : Nat) :
    Nat → List String → Option String → Option (List String)
  | 0, _, _ => none
  | fuel + 1, members, cursor =>
    let out := getList listUri cursor
    match listCollect limit members out.items with
    | .error res => some res
    | .ok members1 =>
      if truthyS out.cursor then
        fetch_list_members getList listUri limit fuel members1 out.cursor
      else some (members1.take limit)

/-- `fetch_feed_items`'s `while len(items) < max_items` loop, with fuel; the
loop body runs at most `maxItems` times (each continuing iteration grows
`items`), so any fuel above `maxItems` yields the loop's value
(`fetch_feed_items_loop_fuel` below). -/
def fetch_feed_items_loop (getFeed : String → Option String → Nat → FeedPage)
    (feedUri : String) (maxItems : Nat) :
    Nat → List FeedItem → Option String → List FeedItem
  | 0, items, _ => items
  | fuel + 1, items, cursor =>
    if items.length < maxItems then
      let batchLimit := min 100 (maxItems - items.length)
      if batchLimit = 0 then items
      else
        let cursorParam := if truthyS cursor then cursor else none
        let out := getFeed feedUri cursorParam batchLimit
        let batch := out.feed
        let items1 := items ++ batch
        if ¬ truthyS out.cursor ∨ batch.isEmpty then items1
        else fetch_feed_items_loop getFeed feedUri maxItems fuel items1 out.cursor
    else items

/-- `fetch_feed_items(client, feed_uri, max_items)`. -/
def fetch_feed_items (getFeed : String → Option String → Nat → FeedPage)
    (feedUri : String) (maxItems : Nat) : List FeedItem :=
  (fetch_feed_items_loop getFeed feedUri maxItems (maxItems + 1) [] none).take maxItems

/-! ## Cleanup -/

/-- `delete_repost_record`: parse the repost uri, refuse foreign records,
delete remotely; returns success together with the committed write trace. -/
def delete_repost_record (remote : Remote) (repost_uri : String) :
    Bool × List WriteAction :=
  if repost_uri = "" ∨ ¬ pyStartsWith repost_uri "at://" then (false, [])
  else if (pySplitSlash repost_uri).length < 5 then (false, [])
  else if (pySplitSlash repost_uri).getD 2 "" ≠ remote.meDid then (false, [])
  else if remote.deleteRecord remote.meDid ((pySplitSlash repost_uri).getD 3 "")
      ((pySplitSlash repost_uri).getD 4 "") then
    (true, [.deleteRecord remote.meDid ((pySplitSlash repost_uri).getD 3 "")
      ((pySplitSlash repost_uri).getD 4 "")])
  else (false, [])

/-- One iteration of the `cleanup_old_reposts` loop for `item`: `true` means
the entry is kept, and the second component is the committed write trace. -/
def cleanupKeeps (env : Env) (remote : Remote) (cutoff : Time)
    (item : RepostEntry) : Bool × List WriteAction :=
  if cutoff ≤ (parse_dt env (item.createdAt.getD "")).getD env.now then (true, [])
  else if ¬ truthyS item.repost_uri then (true, [])
  else if (delete_repost_record remote (item.repost_uri.getD "")).1 then
    (false, (delete_repost_record remote (item.repost_uri.getD "")).2)
  else (true, (delete_repost_record remote (item.repost_uri.getD "")).2)

/-- The `for item in state.get("reposts", [])` loop of `cleanup_old_reposts`:
returns (kept entries, removed count, writes), preserving entry order. -/
def cleanupGo (env : Env) (remote : Remote) (cutoff : Time) :
    List RepostEntry → List RepostEntry × Nat × List WriteAction
  | [] => ([], 0, [])
  | item :: rest =>
    let k := cleanupKeeps env remote cutoff item
    let acc := cleanupGo env remote cutoff rest
    if k.1 then (item :: acc.1, acc.2.1, k.2 ++ acc.2.2)
    else (acc.1, acc.2.1 + 1, k.2 ++ acc.2.2)

/-- `cleanup_old_reposts`: returns (kept entries, removed count, writes). -/
def cleanup_old_reposts (env : Env) (remote : Remote) (cfg : Config)
    (reposts : List RepostEntry) : List RepostEntry × Nat × List WriteAction :=
  cleanupGo env remote (env.now - 86400 * cfg.cleanupDays) reposts

/-! ## Anti-dup safety -/

/-- One iteration of the `build_viewer_sets_from_own_feed` collection loop. -/
def viewerSetsStep (acc : List String × List String) (it : FeedItem) :
    List String × List String :=
  match it.post with
  | none => acc
  | some post =>
    if ¬ truthyS post.uri ∨ post.viewer.isNone then acc
    else
      let uri := post.uri.getD ""
      let viewer := post.viewer.getD {}
      let r := if truthyS viewer.repost then addSet acc.1 uri else acc.1
      let l := if truthyS viewer.like then addSet acc.2 uri else acc.2
      (r, l)

/-- `build_viewer_sets_from_own_feed`: viewer-flagged (reposted, liked) uris
of the account's own recent feed; an exception yields two empty sets. -/
def build_viewer_sets_from_own_feed (remote : Remote) (limit : Nat) :
    List String × List String :=
  match remote.getAuthorFeed (min limit 100) with
  | none => ([], [])
  | some feed => feed.foldl viewerSetsStep ([], [])

/-- `update_seen_cache`: prepend the new uris, dedup keeping first
occurrences, truncate to the cache bound. -/
def update_seen_cache (cfg : Config) (state : BotState)
    (reposted liked : List String) : BotState :=
  { state with
    seen_reposted := (dedupKeepFirst (reposted ++ state.seen_reposted)).take cfg.dupCheckCache
    seen_liked := (dedupKeepFirst (liked ++ state.seen_liked)).take cfg.dupCheckCache }

/-! ## Candidate builder -/

/-- A candidate tuple `(p_time, uri, cid)` as built by `do_reposts`. -/
structure Cand where
  time : Time
  uri : String
  cid : String
deriving DecidableEq

/-- The body of the candidate-building `for it in feed_items` loop: `none`
models `continue`, `some c` models `candidates.append(c)`. -/
def candOfItem (env : Env) (cutoff : Time) (excludeAuthors : List String)
    (alreadyReposted : List String) (it : FeedItem) : Option Cand :=
  match it.post with
  | none => none
  | some post =>
    let uri := post.uri
    let cid := post.cid
    let author := post.author.bind AuthorObj.did
    if ¬ truthyS uri ∨ ¬ truthyS cid ∨ ¬ truthyS author ∨ post.record.isNone then none
    else if author.getD "" ∈ excludeAuthors then none
    else if uri.getD "" ∈ alreadyReposted then none
    else
      let p_time := robust_post_time env post
      if p_time < cutoff then none
      else if ¬ has_media (post.record.getD {}) then none
      else some ⟨p_time, uri.getD "", cid.getD ""⟩

/-- Python's stable `list.sort(key=...)` insert: `x` goes after every element
with a strictly smaller key and before the first element with a key `≥` its
own, so equal keys keep their original relative order. -/
def pyInsert (key : α → Time) (x : α) : List α → List α
  | [] => [x]
  | y :: ys => if key y < key x then y :: pyInsert key x ys else x :: y :: ys

/-- Stable sort by an integer key (the output of any stable sort is uniquely
determined, so insertion sort embeds `list.sort(key=...)` exactly). -/
def pySortKey (key : α → Time) : List α → List α
  | [] => []
  | x :: xs => pyInsert key x (pySortKey key xs)

/-- `candidates.sort(key=lambda x: x[0])`. -/
def sortCandidates (cands : List Cand) : List Cand :=
  pySortKey Cand.time cands

/-! ## Action engine -/

/-- The loop state of the repost+like action loop of `do_reposts`. -/
structure LoopSt where
  reposts : List RepostEntry
  alreadyReposted : List String
  alreadyLiked : List String
  made : Nat
  writes : List WriteAction
deriving DecidableEq

/-- The entry appended to `state["reposts"]` for a successfully processed
candidate. -/
def entryOf (env : Env) (remote : Remote) (c : Cand) : RepostEntry :=
  { post_uri := some c.uri
    post_cid := some c.cid
    repost_uri := (remote.repostCreate c.uri c.cid).getD none
    createdAt := some env.nowIso }

/-- The `for p_time, uri, cid in candidates` action loop: budget break,
repost create, conditional like create, state append; an exception from
either create aborts the candidate (the repost's committed write, if any,
stays in the trace but nothing is recorded in the state). -/
def actionLoop (env : Env) (remote : Remote) (cfg : Config) :
    List Cand → LoopSt → LoopSt
  | [], s => s
  | c :: rest, s =>
    if cfg.maxPerRun ≤ s.made then s
    else
      match remote.repostCreate c.uri c.cid with
      | none => actionLoop env remote cfg rest s
      | some repostUri =>
        let s1 := { s with writes := s.writes ++ [.repost c.uri c.cid] }
        if c.uri ∈ s1.alreadyLiked then
          actionLoop env remote cfg rest
            { s1 with
              reposts := s1.reposts ++
                [⟨some c.uri, some c.cid, repostUri, some env.nowIso⟩]
              alreadyReposted := addSet s1.alreadyReposted c.uri
              made := s1.made + 1 }
        else if remote.likeCreate c.uri c.cid then
          actionLoop env remote cfg rest
            { s1 with
              writes := s1.writes ++ [.like c.uri c.cid]
              alreadyLiked := addSet s1.alreadyLiked c.uri
              reposts := s1.reposts ++
                [⟨some c.uri, some c.cid, repostUri, some env.nowIso⟩]
              alreadyReposted := addSet s1.alreadyReposted c.uri
              made := s1.made + 1 }
        else actionLoop env remote cfg rest s1

/-! ## do_reposts -/

/-- `known_state`: the truthy `post_uri`s tracked in the persisted history. -/
def knownStateSet (state : BotState) : List String :=
  state.reposts.filterMap
    (fun x => if truthyS x.post_uri then some (x.post_uri.getD "") else none)

/-- `already_reposted = api_reposted | cached_reposted | known_state`. -/
def alreadyRepostedSet (remote : Remote) (cfg : Config) (state : BotState) :
    List String :=
  unionSet
    (unionSet (build_viewer_sets_from_own_feed remote cfg.dupCheckAuthorFeedLimit).1
      state.seen_reposted)
    (knownStateSet state)

/-- `already_liked = api_liked | cached_liked`. -/
def alreadyLikedSet (remote : Remote) (cfg : Config) (state : BotState) :
    List String :=
  unionSet (build_viewer_sets_from_own_feed remote cfg.dupCheckAuthorFeedLimit).2
    state.seen_liked

/-- The full (unsorted) candidate list built by `do_reposts` from the fetched
feed pages. -/
def candidatesOf (env : Env) (remote : Remote) (cfg : Config) (state : BotState)
    (feedUri : String) (excludeAuthors : List String) : List Cand :=
  let cutoff := env.now - 3600 * cfg.hoursBack
  (fetch_feed_items remote.getFeed feedUri cfg.feedMaxItems).filterMap
    (candOfItem env cutoff excludeAuthors (alreadyRepostedSet remote cfg state))

/-- Result of `do_reposts`: the final state, the `made` count, the trace. -/
structure DoRes where
  state : BotState
  made : Nat
  writes : List WriteAction
deriving DecidableEq

/-- `do_reposts(client, state, feed_uri, exclude_authors)`. -/
def do_reposts (env : Env) (remote : Remote) (cfg : Config) (state : BotState)
    (feedUri : String) (excludeAuthors : List String) : DoRes :=
  let sorted := sortCandidates (candidatesOf env remote cfg state feedUri excludeAuthors)
  let fin := actionLoop env remote cfg sorted
    ⟨state.reposts, alreadyRepostedSet remote cfg state,
      alreadyLikedSet remote cfg state, 0, []⟩
  let st1 := update_seen_cache cfg { state with reposts := fin.reposts }
    fin.alreadyReposted fin.alreadyLiked
  ⟨st1, fin.made, fin.writes⟩

/-! ## State persistence (JSON level)

`json.dump`/`json.load` are the external JSON codec; the file system is
modelled at parsed-value level as a map from paths to the stored JSON
value, so `save_state`'s write-temp-then-rename is the atomic update of
that map and `load_state` reads the stored value back. -/

/-- A JSON value (objects keep their key order, as Python dicts do). -/
inductive Json where
  | null
  | bool (b : Bool)
  | num (n : Int)
  | str (s : String)
  | arr (elems : List Json)
  | obj (fields : List (String × Json))

/-- First-occurrence key lookup in a JSON object. -/
def lookupKey : List (String × Json) → String → Option Json
  | [], _ => none
  | (k, v) :: rest, key => if k = key then some v else lookupKey rest key

/-- `dict.setdefault(k, v)`: append `(k, v)` unless the key is present. -/
def setdefault (fields : List (String × Json)) (k : String) (v : Json) :
    List (String × Json) :=
  if (lookupKey fields k).isSome then fields else fields ++ [(k, v)]

/-- `load_state(path)`: default skeleton when the file is absent, otherwise
the parsed object with the three recognized keys defaulted; a stored
non-object makes `st.setdefault` raise (`none`). -/
def load_state (fs : String → Option Json) (path : String) : Option Json :=
  match fs path with
  | none => some (.obj [("reposts", .arr []), ("seen_reposted", .arr []),
      ("seen_liked", .arr [])])
  | some (.obj fields) =>
    some (.obj (setdefault (setdefault (setdefault fields
      "reposts" (.arr [])) "seen_reposted" (.arr [])) "seen_liked" (.arr [])))
  | some _ => none

/-- `save_state(path, state)`: write the value to `path + ".tmp"`, then
`os.replace` it onto `path` — net effect on the path-to-value map. -/
def save_state (fs : String → Option Json) (path : String) (state : Json) :
    String → Option Json :=
  fun p => if p = path then some state else if p = path ++ ".tmp" then none else fs p

/-! ## main -/

/-- How `main` returned. -/
inductive Outcome where
  | missingCreds
  | badExcludeList
  | badFeedLink
  | done
deriving DecidableEq

/-- Observable outcome of one `main` invocation. -/
structure RunResult where
  /-- committed remote write actions, in order. -/
  writes : List WriteAction
  /-- the in-memory state at return (`none`: returned before `load_state`). -/
  finalState : Option BotState
  /-- the state passed to `save_state` (`none`: never persisted). -/
  saved : Option BotState
  outcome : Outcome
  made : Nat
  removed : Nat
deriving DecidableEq

/-- `load_state` at the typed level used by the orchestration: an absent
file is the empty initial state (`setdefault` is a no-op on the typed
record, whose three fields always exist). -/
def loadStateT (stored : Option BotState) : BotState :=
  stored.getD {}

/-- `main()`, over a stored typed state; `fuel` bounds the pages the
list-membership fetch may follow (`none` = that fetch never returns).
Written without local bindings (each stage repeated where used) so the run
can be dissected by case analysis; program order is login check, state
load, exclude-list resolution and fetch, cleanup, feed-link resolution,
repost phase, persist. -/
def mainRun (env : Env) (remote : Remote) (cfg : Config)
    (stored : Option BotState) (fuel : Nat) : Option RunResult :=
  if ¬ truthyS cfg.username ∨ ¬ truthyS cfg.password then
    some ⟨[], none, none, .missingCreds, 0, 0⟩
  else
    match (if cfg.excludeListLink ≠ "" then
        match normalize_list_uri remote cfg.excludeListLink with
        | none =>
          Except.error
            (⟨[], some (loadStateT stored), none, .badExcludeList, 0, 0⟩ : RunResult)
        | some exUri =>
          Except.ok (fetch_list_members remote.getList exUri cfg.listMemberLimit
            fuel [] none)
      else Except.ok (some ([] : List String))) with
    | .error r => some r
    | .ok none => none
    | .ok (some excludeAuthors) =>
      match normalize_feed_uri remote cfg.feedLink with
      | none =>
        some ⟨(cleanup_old_reposts env remote cfg (loadStateT stored).reposts).2.2,
          some { loadStateT stored with
            reposts := (cleanup_old_reposts env remote cfg (loadStateT stored).reposts).1 },
          none, .badFeedLink, 0,
          (cleanup_old_reposts env remote cfg (loadStateT stored).reposts).2.1⟩
      | some feedUri =>
        some ⟨(cleanup_old_reposts env remote cfg (loadStateT stored).reposts).2.2
            ++ (do_reposts env remote cfg
                { loadStateT stored with
                  reposts := (cleanup_old_reposts env remote cfg (loadStateT stored).reposts).1 }
                feedUri excludeAuthors).writes,
          some (do_reposts env remote cfg
              { loadStateT stored with
                reposts := (cleanup_old_reposts env remote cfg (loadStateT stored).reposts).1 }
              feedUri excludeAuthors).state,
          some (do_reposts env remote cfg
              { loadStateT stored with
                reposts := (cleanup_old_reposts env remote cfg (loadStateT stored).reposts).1 }
              feedUri excludeAuthors).state,
          .done,
          (do_reposts env remote cfg
              { loadStateT stored with
                reposts := (cleanup_old_reposts env remote cfg (loadStateT stored).reposts).1 }
              feedUri excludeAuthors).made,
          (cleanup_old_reposts env remote cfg (loadStateT stored).reposts).2.1⟩


/-! ## Spec-side definitions and proof vocabulary -/

/-- Pair each element with its (fetch-order) index, starting at `n`. -/
def decorate : Nat → List α → List (Nat × α)
  | _, [] => []
  | n, x :: xs => (n, x) :: decorate (n + 1) xs

/-- The strict order "earlier timestamp, or equal timestamp and earlier
fetch index" on index-decorated candidates. -/
def keyIdxLt (key : α → Time) (a b : Nat × α) : Prop :=
  key a.2 < key b.2 ∨ (key a.2 = key b.2 ∧ a.1 < b.1)

/-- The facts left invariant by the action loop when a uri is absent from
every component of the loop state. -/
def NoTrace (u : String) (s : LoopSt) : Prop :=
  (∀ e ∈ s.reposts, e.post_uri ≠ some u)
    ∧ u ∉ s.alreadyReposted
    ∧ u ∉ s.alreadyLiked
    ∧ (∀ w ∈ s.writes, ∀ c, w ≠ .like u c)

/-- Spec-side reformulation: the entry is strictly older than the cutoff
`now − retention window`. -/
def specExpired (env : Env) (cfg : Config) (it : RepostEntry) : Bool :=
  decide ((parse_dt env (it.createdAt.getD "")).getD env.now
    < env.now - 86400 * cfg.cleanupDays)

/-- Spec-side reformulation: the remote retraction of the entry's repost
succeeds (a falsy/invalid/foreign action uri never succeeds). -/
def specRetracts (remote : Remote) (it : RepostEntry) : Bool :=
  truthyS it.repost_uri && (delete_repost_record remote (it.repost_uri.getD "")).1

/-- A misbehaving list source: every page is an empty batch with a cursor. -/
def emptyBatchListSource : String → Option String → ListPage :=
  fun _ _ => { items := [], cursor := some "cursor" }

/-- A misbehaving feed source: every page is an empty batch with a cursor. -/
def emptyBatchFeedSource : String → Option String → Nat → FeedPage :=
  fun _ _ _ => { feed := [], cursor := some "cursor" }


/-- The spec's media classification: the embed is images, video, or a
record-with-media wrapping either (stated from the spec's words, to be
compared against `has_media`). -/
def mediaBySpec (record : PostRecord) : Prop :=
  ∃ e, record.embed = some e ∧
    (truthyL e.images ∨ e.video.isSome
      ∨ ∃ rwm m, e.recordWithMedia = some rwm ∧ rwm.media = some m
          ∧ (truthyL m.images ∨ m.video.isSome))

/-! ## Concrete fixtures for witnesses and counterexamples -/

/-- A feed post with image media, identified by uri/cid/author/time tag. -/
def mkPost (uri cid author created : String) : Post :=
  { uri := some uri, cid := some cid, author := some ⟨some author⟩
    record := some { createdAt := some created, embed := some { images := some [()] } } }

/-- Times: t1 ↦ 10, t2 ↦ 30, t3 ↦ 50, t4 ↦ 20, t5 ↦ 40; `now` one day in,
so the 24h-lookback cutoff is 0 and all five posts are recent. -/
def envRun : Env :=
  { parse := fun s =>
      if s = "t1" then some 10
      else if s = "t2" then some 30
      else if s = "t3" then some 50
      else if s = "t4" then some 20
      else if s = "t5" then some 40
      else none
    now := 86400
    nowIso := "TS" }

/-- An all-succeeding client with an empty own feed and no list pages. -/
def remoteOkBase : Remote :=
  { meDid := "ME"
    resolveHandle := fun _ => some "did:resolved"
    getList := fun _ _ => {}
    getFeed := fun _ _ _ => {}
    getAuthorFeed := fun _ => some []
    deleteRecord := fun _ _ _ => true
    repostCreate := fun u _ => some (some ("at://ME/app.bsky.feed.repost/of-" ++ u))
    likeCreate := fun _ _ => true }

/-- The same fresh post, returned on two successive pages of one run. -/
def postDup : Post := mkPost "at://u1" "c1" "did:alice" "t1"

/-- A source whose first page and second page both carry `postDup`. -/
def remoteDupFeed : Remote :=
  { remoteOkBase with
    getFeed := fun _ cur _ =>
      if cur = none then { feed := [⟨some postDup⟩], cursor := some "page2" }
      else { feed := [⟨some postDup⟩], cursor := none } }

/-- Three distinct recent media posts, all by the same author. -/
def feedSameAuthor : List FeedItem :=
  [⟨some (mkPost "at://u1" "c1" "did:alice" "t1")⟩,
   ⟨some (mkPost "at://u2" "c2" "did:alice" "t2")⟩,
   ⟨some (mkPost "at://u3" "c3" "did:alice" "t3")⟩]

/-- A source serving `feedSameAuthor` in one page. -/
def remoteSameAuthor : Remote :=
  { remoteOkBase with
    getFeed := fun _ _ _ => { feed := feedSameAuthor, cursor := none } }

/-- Five valid candidates with derived times 10, 30, 50, 20, 40. -/
def feedFive : List FeedItem :=
  [⟨some (mkPost "at://u1" "c1" "did:a" "t1")⟩,
   ⟨some (mkPost "at://u2" "c2" "did:b" "t2")⟩,
   ⟨some (mkPost "at://u3" "c3" "did:c" "t3")⟩,
   ⟨some (mkPost "at://u4" "c4" "did:d" "t4")⟩,
   ⟨some (mkPost "at://u5" "c5" "did:e" "t5")⟩]

/-- A source serving `feedFive` in one page. -/
def remoteFive : Remote :=
  { remoteOkBase with getFeed := fun _ _ _ => { feed := feedFive, cursor := none } }

/-- Budget of 2 actions per run. -/
def cfgBudget2 : Config := { maxPerRun := 2 }

/-- A client whose repost create succeeds but whose like create raises for
the uri of `postDup`. -/
def remoteLikeFails : Remote :=
  { remoteOkBase with
    getFeed := fun _ _ _ => { feed := [⟨some postDup⟩], cursor := none }
    likeCreate := fun u _ => decide (¬ u = "at://u1") }

/-- `now` 100 days in, so a time-0 entry is far beyond the 14-day window. -/
def envClean : Env :=
  { parse := fun s => if s = "old" then some 0 else none
    now := 8640000
    nowIso := "TS" }

/-- A tracked repost entry 100 days old, owned by the acting account. -/
def entExpired : RepostEntry :=
  { post_uri := some "at://p", post_cid := some "pc"
    repost_uri := some "at://ME/app.bsky.feed.repost/r1", createdAt := some "old" }

/-- A client whose remote delete call always fails. -/
def remoteDelFails : Remote := { remoteOkBase with deleteRecord := fun _ _ _ => false }

/-- Credentials present, empty exclude-list link, unresolvable feed link. -/
def cfgBadFeed : Config :=
  { username := some "user", password := some "pass"
    feedLink := "x", excludeListLink := "" }

/-- Persisted state holding only the expired entry. -/
def stateExpired : BotState := { reposts := [entExpired] }

/-- A persisted state already tracking the uri of `postDup`. -/
def stateTracked : BotState := { reposts := [{ post_uri := some "at://u1" }] }

/-- The run result of a credentials-missing abort. -/
def rNoCreds : RunResult :=
  { writes := [], finalState := none, saved := none
    outcome := .missingCreds, made := 0, removed := 0 }

/-- A stored state object carrying the three recognized keys (plus one
extra key, which must survive the round trip). -/
def stateFieldsW : List (String × Json) :=
  [("reposts", .arr [.obj [("post_uri", .str "at://p")]]),
   ("seen_reposted", .arr [.str "at://p"]),
   ("seen_liked", .arr []),
   ("followed", .arr [])]


/-! ## Helper lemmas: set-as-list operations -/

theorem mem_addSet {l : List String} {x a : String} :
    a ∈ addSet l x ↔ a ∈ l ∨ a = x := by
  unfold addSet
  split
  · rename_i hx
    constructor
    · exact Or.inl
    · rintro (h | rfl)
      · exact h
      · exact hx
  · simp [List.mem_append]

theorem mem_unionSet {a : String} {l1 l2 : List String} :
    a ∈ unionSet l1 l2 ↔ a ∈ l1 ∨ a ∈ l2 := by
  unfold unionSet
  induction l2 generalizing l1 with
  | nil => simp
  | cons x xs ih =>
    simp only [List.foldl_cons, ih, mem_addSet, List.mem_cons]
    tauto

theorem mem_dedupKeepFirst {a : String} {l : List String} :
    a ∈ dedupKeepFirst l ↔ a ∈ l := by
  induction l with
  | nil => simp [dedupKeepFirst]
  | cons x xs ih =>
    simp only [dedupKeepFirst, List.mem_cons, List.mem_filter]
    constructor
    · rintro (rfl | ⟨h, _⟩)
      · exact Or.inl rfl
      · exact Or.inr (ih.mp h)
    · rintro (rfl | h)
      · exact Or.inl rfl
      · by_cases hax : a = x
        · exact Or.inl hax
        · exact Or.inr ⟨ih.mpr h, by simpa using hax⟩

theorem mem_of_mem_take {a : α} {l : List α} {n : Nat} (h : a ∈ l.take n) :
    a ∈ l :=
  (List.take_sublist n l).mem h

/-! ## Helper lemmas: the stable sort -/

theorem pyInsert_perm (key : α → Time) (x : α) (l : List α) :
    (pyInsert key x l).Perm (x :: l) := by
  induction l with
  | nil => exact List.Perm.refl _
  | cons y ys ih =>
    simp only [pyInsert]
    split
    · exact ((ih.cons y).trans (List.Perm.swap x y ys))
    · exact List.Perm.refl _

theorem pySortKey_perm (key : α → Time) (l : List α) :
    (pySortKey key l).Perm l := by
  induction l with
  | nil => exact List.Perm.refl _
  | cons x xs ih =>
    exact (pyInsert_perm key x (pySortKey key xs)).trans (ih.cons x)

theorem mem_pyInsert {key : α → Time} {x a : α} {l : List α} :
    a ∈ pyInsert key x l ↔ a = x ∨ a ∈ l := by
  rw [(pyInsert_perm key x l).mem_iff, List.mem_cons]

theorem mem_pySortKey {key : α → Time} {a : α} {l : List α} :
    a ∈ pySortKey key l ↔ a ∈ l :=
  (pySortKey_perm key l).mem_iff

theorem pairwise_pyInsert (key : α → Time) (x : α) {l : List α}
    (h : l.Pairwise (fun a b => key a ≤ key b)) :
    (pyInsert key x l).Pairwise (fun a b => key a ≤ key b) := by
  induction l with
  | nil => simp [pyInsert]
  | cons y ys ih =>
    rcases List.pairwise_cons.mp h with ⟨hy, hys⟩
    simp only [pyInsert]
    split
    · rename_i hlt
      refine List.pairwise_cons.mpr ⟨?_, ih hys⟩
      intro b hb
      rcases mem_pyInsert.mp hb with rfl | hb
      · exact le_of_lt hlt
      · exact hy b hb
    · rename_i hnlt
      refine List.pairwise_cons.mpr ⟨?_, h⟩
      intro b hb
      rcases List.mem_cons.mp hb with rfl | hb
      · exact le_of_not_lt hnlt
      · exact le_trans (le_of_not_lt hnlt) (hy b hb)

theorem pairwise_pySortKey (key : α → Time) (l : List α) :
    (pySortKey key l).Pairwise (fun a b => key a ≤ key b) := by
  induction l with
  | nil => simp [pySortKey]
  | cons x xs ih => exact pairwise_pyInsert key x ih

theorem le_of_mem_decorate {p : Nat × α} {n : Nat} {l : List α}
    (h : p ∈ decorate n l) : n ≤ p.1 := by
  induction l generalizing n with
  | nil => simp [decorate] at h
  | cons x xs ih =>
    rcases List.mem_cons.mp h with rfl | h
    · exact Nat.le_refl n
    · exact Nat.le_of_succ_le (ih h)

theorem pairwise_idx_decorate (n : Nat) (l : List α) :
    (decorate n l).Pairwise (fun a b => a.1 < b.1) := by
  induction l generalizing n with
  | nil => simp [decorate]
  | cons x xs ih =>
    refine List.pairwise_cons.mpr ⟨?_, ih (n + 1)⟩
    intro p hp
    exact Nat.lt_of_succ_le (le_of_mem_decorate hp)

theorem map_snd_decorate (n : Nat) (l : List α) :
    (decorate n l).map Prod.snd = l := by
  induction l generalizing n with
  | nil => rfl
  | cons x xs ih => simp [decorate, ih]

theorem pairwise_keyIdxLt_pyInsert (key : α → Time) (x : Nat × α)
    {l : List (Nat × α)} (hl : l.Pairwise (keyIdxLt key))
    (hx : ∀ p ∈ l, x.1 < p.1) :
    (pyInsert (fun p => key p.2) x l).Pairwise (keyIdxLt key) := by
  induction l with
  | nil => simp [pyInsert]
  | cons y ys ih =>
    rcases List.pairwise_cons.mp hl with ⟨hy, hys⟩
    simp only [pyInsert]
    split
    · rename_i hlt
      refine List.pairwise_cons.mpr
        ⟨?_, ih hys (fun p hp => hx p (List.mem_cons_of_mem y hp))⟩
      intro b hb
      rcases mem_pyInsert.mp hb with rfl | hb
      · exact Or.inl hlt
      · exact hy b hb
    · rename_i hnlt
      have hxy : key x.2 ≤ key y.2 := le_of_not_lt hnlt
      refine List.pairwise_cons.mpr ⟨?_, hl⟩
      intro b hb
      rcases List.mem_cons.mp hb with rfl | hb
      · rcases lt_or_eq_of_le hxy with h | h
        · exact Or.inl h
        · exact Or.inr ⟨h, hx b (List.mem_cons_self b ys)⟩
      · rcases hy b hb with h | ⟨heq, _⟩
        · exact Or.inl (lt_of_le_of_lt hxy h)
        · rcases lt_or_eq_of_le hxy with h2 | h2
          · exact Or.inl (lt_of_lt_of_le h2 (le_of_eq heq))
          · exact Or.inr ⟨h2.trans heq, hx b (List.mem_cons_of_mem y hb)⟩

theorem pairwise_keyIdxLt_pySortKey (key : α → Time) {l : List (Nat × α)}
    (hidx : l.Pairwise (fun a b => a.1 < b.1)) :
    (pySortKey (fun p => key p.2) l).Pairwise (keyIdxLt key) := by
  induction l with
  | nil => simp [pySortKey]
  | cons x xs ih =>
    rcases List.pairwise_cons.mp hidx with ⟨hx, hxs⟩
    refine pairwise_keyIdxLt_pyInsert key x (ih hxs) ?_
    intro p hp
    exact hx p (mem_pySortKey.mp hp)

theorem pyInsert_map (key : β → Time) (f : α → β) (x : α) (l : List α) :
    (pyInsert (fun a => key (f a)) x l).map f = pyInsert key (f x) (l.map f) := by
  induction l with
  | nil => rfl
  | cons y ys ih =>
    by_cases h : key (f y) < key (f x)
    · simp [pyInsert, h, ih]
    · simp [pyInsert, h]

theorem pySortKey_map (key : β → Time) (f : α → β) (l : List α) :
    (pySortKey (fun a => key (f a)) l).map f = pySortKey key (l.map f) := by
  induction l with
  | nil => rfl
  | cons x xs ih => simp [pySortKey, pyInsert_map, ih]

/-! ## Helper lemmas: the action loop -/

theorem actionLoop_success_made {env : Env} {remote : Remote} {cfg : Config}
    (hr : ∀ u c, remote.repostCreate u c ≠ none)
    (hl : ∀ u c, remote.likeCreate u c = true) :
    ∀ (cands : List Cand) (s : LoopSt), s.made ≤ cfg.maxPerRun →
      (actionLoop env remote cfg cands s).made
        = min cfg.maxPerRun (s.made + cands.length) := by
  intro cands
  induction cands with
  | nil =>
    intro s hs
    simp only [actionLoop, List.length_nil, Nat.add_zero]
    omega
  | cons c rest ih =>
    intro s hs
    simp only [actionLoop]
    split
    · rename_i hbreak
      simp only [List.length_cons]
      omega
    · rename_i hlt
      rcases Option.ne_none_iff_exists'.mp (hr c.uri c.cid) with ⟨ru, hru⟩
      rw [hru]
      simp only
      split
      · rw [ih _ (by simp only; omega)]
        simp only [List.length_cons]
        omega
      · rw [hl c.uri c.cid]
        simp only [if_true]
        rw [ih _ (by simp only; omega)]
        simp only [List.length_cons]
        omega

theorem actionLoop_success_reposts {env : Env} {remote : Remote} {cfg : Config}
    (hr : ∀ u c, remote.repostCreate u c ≠ none)
    (hl : ∀ u c, remote.likeCreate u c = true) :
    ∀ (cands : List Cand) (s : LoopSt), s.made ≤ cfg.maxPerRun →
      (actionLoop env remote cfg cands s).reposts
        = s.reposts
          ++ (cands.take (cfg.maxPerRun - s.made)).map (entryOf env remote) := by
  intro cands
  induction cands with
  | nil =>
    intro s hs
    simp [actionLoop]
  | cons c rest ih =>
    intro s hs
    simp only [actionLoop]
    split
    · rename_i hbreak
      have : cfg.maxPerRun - s.made = 0 := by omega
      simp [this]
    · rename_i hlt
      have htake : cfg.maxPerRun - s.made = (cfg.maxPerRun - (s.made + 1)) + 1 := by
        omega
      rcases Option.ne_none_iff_exists'.mp (hr c.uri c.cid) with ⟨ru, hru⟩
      rw [hru]
      simp only
      have hentry : (⟨some c.uri, some c.cid, ru, some env.nowIso⟩ : RepostEntry)
          = entryOf env remote c := by
        simp [entryOf, hru]
      split
      · rw [ih _ (by simp only; omega)]
        simp only [htake, List.take_succ_cons, List.map_cons, hentry]
        simp [List.append_assoc]
      · rw [hl c.uri c.cid]
        simp only [if_true]
        rw [ih _ (by simp only; omega)]
        simp only [htake, List.take_succ_cons, List.map_cons, hentry]
        simp [List.append_assoc]

theorem actionLoop_noTrace {env : Env} {remote : Remote} {cfg : Config}
    {u : String} (hlike : ∀ c, remote.likeCreate u c = false) :
    ∀ (cands : List Cand) (s : LoopSt), NoTrace u s →
      NoTrace u (actionLoop env remote cfg cands s) := by
  intro cands
  induction cands with
  | nil => intro s hs; simpa [actionLoop] using hs
  | cons c rest ih =>
    intro s hs
    obtain ⟨hrep, har, hal, hw⟩ := hs
    simp only [actionLoop]
    split
    · exact ⟨hrep, har, hal, hw⟩
    · cases hrc : remote.repostCreate c.uri c.cid with
      | none => exact ih s ⟨hrep, har, hal, hw⟩
      | some ru =>
        have hw1 : ∀ w ∈ s.writes ++ [WriteAction.repost c.uri c.cid],
            ∀ cc, w ≠ .like u cc := by
          intro w hwmem cc
          rcases List.mem_append.mp hwmem with h | h
          · exact hw w h cc
          · rcases List.mem_singleton.mp h with rfl
            simp
        simp only
        split
        · rename_i hinliked
          have hne : c.uri ≠ u := by
            intro h
            exact hal (h ▸ hinliked)
          refine ih _ ⟨?_, ?_, hal, hw1⟩
          · intro e he
            rcases List.mem_append.mp he with h | h
            · exact hrep e h
            · rcases List.mem_singleton.mp h with rfl
              simp only [ne_eq, Option.some.injEq]
              exact hne
          · intro h
            rcases mem_addSet.mp h with h | h
            · exact har h
            · exact hne h.symm
        · split
          · rename_i hlikeok
            have hne : c.uri ≠ u := by
              intro h
              rw [h] at hlikeok
              rw [hlike c.cid] at hlikeok
              exact Bool.false_ne_true hlikeok
            refine ih _ ⟨?_, ?_, ?_, ?_⟩
            · intro e he
              rcases List.mem_append.mp he with h | h
              · exact hrep e h
              · rcases List.mem_singleton.mp h with rfl
                simp only [ne_eq, Option.some.injEq]
                exact hne
            · intro h
              rcases mem_addSet.mp h with h | h
              · exact har h
              · exact hne h.symm
            · intro h
              rcases mem_addSet.mp h with h | h
              · exact hal h
              · exact hne h.symm
            · intro w hwmem cc
              rcases List.mem_append.mp hwmem with h | h
              · exact hw1 w h cc
              · rcases List.mem_singleton.mp h with rfl
                simp only [ne_eq, WriteAction.like.injEq, not_and]
                intro h
                exact absurd h hne
          · exact ih _ ⟨hrep, har, hal, hw1⟩

/-! ## Helper lemmas: candidate builder and cleanup -/

theorem candOfItem_uri_not_already {env : Env} {cutoff : Time}
    {excl already : List String} {it : FeedItem} {c : Cand}
    (h : candOfItem env cutoff excl already it = some c) : c.uri ∉ already := by
  unfold candOfItem at h
  cases hp : it.post with
  | none => rw [hp] at h; exact absurd h (by simp)
  | some post =>
    rw [hp] at h
    simp only at h
    split_ifs at h with h1 h2 h3 h4 h5
    first
      | exact Option.noConfusion h
      | (injection h with h'
         subst h'
         exact h3)

theorem cleanupKeeps_fst (env : Env) (remote : Remote) (cfg : Config)
    (it : RepostEntry) :
    (cleanupKeeps env remote (env.now - 86400 * cfg.cleanupDays) it).1
      = !(specExpired env cfg it && specRetracts remote it) := by
  by_cases h1 : env.now - 86400 * cfg.cleanupDays
      ≤ (parse_dt env (it.createdAt.getD "")).getD env.now
  · simp [cleanupKeeps, specExpired, specRetracts, h1, not_lt.mpr h1]
  · have hexp : (parse_dt env (it.createdAt.getD "")).getD env.now
        < env.now - 86400 * cfg.cleanupDays := not_le.mp h1
    by_cases h2 : truthyS it.repost_uri
    · by_cases h3 : (delete_repost_record remote (it.repost_uri.getD "")).1
      · simp [cleanupKeeps, specExpired, specRetracts, h1, h2, h3, hexp]
      · simp [cleanupKeeps, specExpired, specRetracts, h1, h2, h3, hexp]
    · simp [cleanupKeeps, specExpired, specRetracts, h1, h2, hexp]

theorem cleanup_old_reposts_keep (env : Env) (remote : Remote) (cfg : Config)
    (reposts : List RepostEntry) :
    (cleanup_old_reposts env remote cfg reposts).1
      = reposts.filter
          (fun it => !(specExpired env cfg it && specRetracts remote it)) := by
  unfold cleanup_old_reposts
  induction reposts with
  | nil => rfl
  | cons it rest ih =>
    simp only [cleanupGo, List.filter_cons]
    rw [← cleanupKeeps_fst env remote cfg it]
    cases hk : (cleanupKeeps env remote (env.now - 86400 * cfg.cleanupDays) it).1 <;>
      simp [hk, ih]

theorem cleanup_old_reposts_count (env : Env) (remote : Remote) (cfg : Config)
    (reposts : List RepostEntry) :
    (cleanup_old_reposts env remote cfg reposts).2.1
      = (reposts.filter
          (fun it => specExpired env cfg it && specRetracts remote it)).length := by
  unfold cleanup_old_reposts
  induction reposts with
  | nil => rfl
  | cons it rest ih =>
    simp only [cleanupGo, List.filter_cons]
    rw [← Bool.not_not (specExpired env cfg it && specRetracts remote it),
      ← cleanupKeeps_fst env remote cfg it]
    cases hk : (cleanupKeeps env remote (env.now - 86400 * cfg.cleanupDays) it).1 <;>
      simp [hk, ih]

theorem delete_repost_record_snd {remote : Remote} {ru : String} :
    (delete_repost_record remote ru).2 = []
      ∨ ∃ a b c, (delete_repost_record remote ru).2 = [.deleteRecord a b c] := by
  unfold delete_repost_record
  split_ifs
  · exact Or.inl rfl
  · exact Or.inl rfl
  · exact Or.inl rfl
  · exact Or.inr ⟨_, _, _, rfl⟩
  · exact Or.inl rfl

theorem cleanupKeeps_snd {env : Env} {remote : Remote} {cutoff : Time}
    {it : RepostEntry} :
    (cleanupKeeps env remote cutoff it).2 = []
      ∨ (cleanupKeeps env remote cutoff it).2
          = (delete_repost_record remote (it.repost_uri.getD "")).2 := by
  unfold cleanupKeeps
  split_ifs
  · exact Or.inl rfl
  · exact Or.inr rfl
  · exact Or.inr rfl
  · exact Or.inl rfl

theorem cleanupKeeps_writes {env : Env} {remote : Remote} {cutoff : Time}
    {it : RepostEntry} :
    ∀ w ∈ (cleanupKeeps env remote cutoff it).2,
      ∃ a b c, w = .deleteRecord a b c := by
  intro w hw
  rcases @cleanupKeeps_snd env remote cutoff it with h | h
  · rw [h] at hw
    exact absurd hw (by simp)
  · rw [h] at hw
    rcases @delete_repost_record_snd remote (it.repost_uri.getD "")
        with h2 | ⟨a, b, c, h2⟩
    · rw [h2] at hw
      exact absurd hw (by simp)
    · rw [h2] at hw
      rcases List.mem_singleton.mp hw with rfl
      exact ⟨a, b, c, rfl⟩

theorem cleanup_old_reposts_writes {env : Env} {remote : Remote} {cfg : Config}
    {reposts : List RepostEntry} :
    ∀ w ∈ (cleanup_old_reposts env remote cfg reposts).2.2,
      ∃ a b c, w = .deleteRecord a b c := by
  unfold cleanup_old_reposts
  induction reposts with
  | nil => simp [cleanupGo]
  | cons it rest ih =>
    intro w hw
    simp only [cleanupGo] at hw
    have hmem : w ∈ (cleanupKeeps env remote (env.now - 86400 * cfg.cleanupDays) it).2
        ∨ w ∈ (cleanupGo env remote (env.now - 86400 * cfg.cleanupDays) rest).2.2 := by
      revert hw
      split <;> (intro hw; exact List.mem_append.mp hw)
    rcases hmem with h | h
    · exact cleanupKeeps_writes w h
    · exact ih w h

/-! ## Helper lemmas: paged fetchers -/

theorem fetch_feed_items_loop_fuel (src : String → Option String → Nat → FeedPage)
    (uri : String) (n : Nat) :
    ∀ (f g : Nat) (items : List FeedItem) (cursor : Option String),
      n < items.length + f → n < items.length + g →
      fetch_feed_items_loop src uri n f items cursor
        = fetch_feed_items_loop src uri n g items cursor := by
  intro f
  induction f with
  | zero =>
    intro g items cursor hf hg
    have hlen : ¬ items.length < n := by omega
    cases g with
    | zero => rfl
    | succ g2 => simp [fetch_feed_items_loop, hlen]
  | succ f2 ih =>
    intro g items cursor hf hg
    cases g with
    | zero =>
      have hlen : ¬ items.length < n := by omega
      simp [fetch_feed_items_loop, hlen]
    | succ g2 =>
      simp only [fetch_feed_items_loop]
      by_cases hlen : items.length < n
      · simp only [if_pos hlen]
        by_cases hbl : min 100 (n - items.length) = 0
        · simp [hbl]
        · simp only [if_neg hbl]
          by_cases hc :
              ¬ truthyS (src uri (if truthyS cursor then cursor else none)
                  (min 100 (n - items.length))).cursor
                ∨ (src uri (if truthyS cursor then cursor else none)
                    (min 100 (n - items.length))).feed.isEmpty
          · simp only [if_pos hc]
          · simp only [if_neg hc]
            have hne : (src uri (if truthyS cursor then cursor else none)
                (min 100 (n - items.length))).feed ≠ [] := by
              intro hnil
              exact hc (Or.inr (by simp [hnil]))
            have hpos : 0 < (src uri (if truthyS cursor then cursor else none)
                (min 100 (n - items.length))).feed.length :=
              List.length_pos.mpr hne
            apply ih
            · simp only [List.length_append]
              omega
            · simp only [List.length_append]
              omega
      · simp [hlen]

theorem fetch_feed_items_emptyBatch (uri : String) (n : Nat) :
    fetch_feed_items emptyBatchFeedSource uri n = [] := by
  cases n with
  | zero => rfl
  | succ m =>
    have h1 : (([] : List FeedItem)).length < m + 1 := by simp
    have h2 : ¬ min 100 (m + 1 - ([] : List FeedItem).length) = 0 := by omega
    have h3 : truthyS (some "cursor") = true := rfl
    simp [fetch_feed_items, fetch_feed_items_loop, emptyBatchFeedSource, h1, h2, h3]

theorem fetch_list_members_emptyBatch (uri : String) (limit : Nat) :
    ∀ (fuel : Nat) (members : List String) (cursor : Option String),
      fetch_list_members emptyBatchListSource uri limit fuel members cursor
        = none := by
  intro fuel
  induction fuel with
  | zero => intro members cursor; rfl
  | succ f ih =>
    intro members cursor
    have h3 : truthyS (some "cursor") = true := rfl
    simp [fetch_list_members, emptyBatchListSource, listCollect, h3, ih]

/-! ## Helper lemmas: timestamps and ordering -/

theorem robust_post_time_cases (env : Env) (post : Post) :
    robust_post_time env post
      = match (if truthyS (post.record.bind PostRecord.createdAt) then
            parse_dt env ((post.record.bind PostRecord.createdAt).getD "")
          else none) with
        | some t => t
        | none =>
          match (if truthyS post.indexedAt then
              parse_dt env (post.indexedAt.getD "") else none) with
          | some t => t
          | none => 0 := by
  unfold robust_post_time
  cases post.record <;> rfl

theorem pairwise_take_drop {R : α → α → Prop} {l : List α}
    (h : l.Pairwise R) (n : Nat) :
    ∀ a ∈ l.take n, ∀ b ∈ l.drop n, R a b := by
  have hsplit := List.take_append_drop n l
  rw [← hsplit] at h
  exact (List.pairwise_append.mp h).2.2

theorem setdefault_of_isSome {fields : List (String × Json)} {k : String}
    {v : Json} (h : (lookupKey fields k).isSome) :
    setdefault fields k v = fields := by
  unfold setdefault
  rw [if_pos h]

/-! ## Claims -/

/-- Claim C8: for every post record, `has_media` returns true iff the
record's embed is images, video, or a record-with-media wrapping images or
video; it returns false for an absent embed, a text-only post, and an
external-link-card-only embed. -/
theorem c8_has_media_iff : ∀ record : PostRecord,
    (has_media record = true ↔ mediaBySpec record)
    ∧ has_media { embed := none } = false
    ∧ has_media { embed := some { external := some () } } = false
    ∧ has_media { embed := some {} } = false
    ∧ has_media { embed := some { images := some [()] } } = true
    ∧ has_media { embed := some { video := some () } } = true
    ∧ has_media
        { embed := some { recordWithMedia := some ⟨some { images := some [()] }⟩ } }
        = true := by
  intro record
  refine ⟨⟨?_, ?_⟩, rfl, rfl, rfl, rfl, rfl, rfl⟩
  · intro h
    unfold has_media at h
    cases hre : record.embed with
    | none => rw [hre] at h; exact absurd h (by simp)
    | some e =>
      simp only [hre] at h
      by_cases h1 : truthyL e.images
      · exact ⟨e, hre, Or.inl h1⟩
      · by_cases h2 : e.video.isSome
        · exact ⟨e, hre, Or.inr (Or.inl h2)⟩
        · rw [if_neg h1, if_neg h2] at h
          cases hrwm : e.recordWithMedia with
          | none => simp [hrwm] at h
          | some rwm =>
            simp only [hrwm] at h
            cases hm : rwm.media with
            | none => simp [hm] at h
            | some m =>
              simp only [hm] at h
              refine ⟨e, hre, Or.inr (Or.inr ⟨rwm, m, hrwm, hm, ?_⟩)⟩
              simpa using h
  · rintro ⟨e, hre, hcase⟩
    unfold has_media
    simp only [hre]
    rcases hcase with h1 | h2 | ⟨rwm, m, hrwm, hm, hmedia⟩
    · simp [h1]
    · by_cases h1 : truthyL e.images
      · simp [h1]
      · simp [h1, h2]
    · by_cases h1 : truthyL e.images
      · simp [h1]
      · by_cases h2v : e.video.isSome
        · simp [h1, h2v]
        · rw [if_neg h1, if_neg h2v]
          simp only [hrwm, hm]
          rcases hmedia with h | h <;> simp [h]

/-- Claim C5: for every action history and retention window, cleanup
partitions entries by age against the cutoff; an entry older than the
cutoff is removed iff its remote retraction succeeds, an expired entry
whose retraction fails is kept, and the returned count is the number of
entries actually removed. -/
theorem c5_cleanup_partitions : ∀ (env : Env) (remote : Remote) (cfg : Config)
    (reposts : List RepostEntry),
    (cleanup_old_reposts env remote cfg reposts).1
      = reposts.filter
          (fun it => !(specExpired env cfg it && specRetracts remote it))
    ∧ (cleanup_old_reposts env remote cfg reposts).2.1
      = (reposts.filter
          (fun it => specExpired env cfg it && specRetracts remote it)).length
    ∧ ∀ it ∈ reposts, specExpired env cfg it = true →
        specRetracts remote it = false →
        it ∈ (cleanup_old_reposts env remote cfg reposts).1 := by
  intro env remote cfg reposts
  refine ⟨cleanup_old_reposts_keep env remote cfg reposts,
    cleanup_old_reposts_count env remote cfg reposts, ?_⟩
  intro it hmem hexp hfail
  rw [cleanup_old_reposts_keep env remote cfg reposts]
  refine List.mem_filter.mpr ⟨hmem, ?_⟩
  simp [hexp, hfail]

/-- Witness for C5: a 100-day-old entry whose retraction call fails stays
in the history after cleanup. -/
theorem c5_cleanup_partitions_witness :
    entExpired ∈ [entExpired]
    ∧ specExpired envClean {} entExpired = true
    ∧ specRetracts remoteDelFails entExpired = false
    ∧ entExpired ∈ (cleanup_old_reposts envClean remoteDelFails {} [entExpired]).1 :=
  ⟨by decide, by decide, by decide,
    (c5_cleanup_partitions envClean remoteDelFails {} [entExpired]).2.2
      entExpired (by decide) (by decide) (by decide)⟩

/-- Claim C9: saving a state object that carries the recognized keys and
then loading it back from the same path yields an equal in-memory
structure. -/
theorem c9_state_roundtrip : ∀ (fs : String → Option Json) (path : String)
    (fields : List (String × Json)),
    (lookupKey fields "reposts").isSome →
    (lookupKey fields "seen_reposted").isSome →
    (lookupKey fields "seen_liked").isSome →
    load_state (save_state fs path (.obj fields)) path = some (.obj fields) := by
  intro fs path fields h1 h2 h3
  have hs : save_state fs path (Json.obj fields) path = some (Json.obj fields) := by
    unfold save_state
    rw [if_pos rfl]
  unfold load_state
  rw [hs]
  show some (Json.obj (setdefault (setdefault (setdefault fields
      "reposts" (.arr [])) "seen_reposted" (.arr [])) "seen_liked" (.arr [])))
    = some (Json.obj fields)
  rw [setdefault_of_isSome h1, setdefault_of_isSome h2, setdefault_of_isSome h3]

/-- Witness for C9: a concrete state file with the three recognized keys
(and an extra one) survives the save/load round trip unchanged. -/
theorem c9_state_roundtrip_witness :
    (lookupKey stateFieldsW "reposts").isSome = true
    ∧ (lookupKey stateFieldsW "seen_reposted").isSome = true
    ∧ (lookupKey stateFieldsW "seen_liked").isSome = true
    ∧ load_state (save_state (fun _ => none) "state.json" (.obj stateFieldsW))
        "state.json" = some (.obj stateFieldsW) :=
  ⟨rfl, rfl, rfl,
    c9_state_roundtrip (fun _ => none) "state.json" stateFieldsW rfl rfl rfl⟩

/-- Claim C3 (refuted on the list fetcher): the feed fetcher returns at most
`max_items` items, its paging loop's value is independent of any fuel beyond
`max_items + 1` (the `while` loop terminates), and it treats an empty batch
as termination even when a cursor is present; but the list-membership
fetcher, run against the same misbehaving empty-batch-with-cursor source,
never returns, however many pages it is allowed to follow. -/
theorem c3_paging_contracts :
    (∀ (src : String → Option String → Nat → FeedPage) (uri : String) (n : Nat),
      (fetch_feed_items src uri n).length ≤ n)
    ∧ (∀ (src : String → Option String → Nat → FeedPage) (uri : String) (n f : Nat),
        n + 1 ≤ f →
        fetch_feed_items_loop src uri n f [] none
          = fetch_feed_items_loop src uri n (n + 1) [] none)
    ∧ (∀ (uri : String) (n : Nat), fetch_feed_items emptyBatchFeedSource uri n = [])
    ∧ (∀ (uri : String) (limit fuel : Nat) (members : List String)
        (cursor : Option String),
        fetch_list_members emptyBatchListSource uri limit fuel members cursor
          = none) := by
  refine ⟨?_, ?_, fetch_feed_items_emptyBatch, fetch_list_members_emptyBatch⟩
  · intro src uri n
    exact List.length_take_le n _
  · intro src uri n f hf
    exact fetch_feed_items_loop_fuel src uri n f (n + 1) [] none
      (by simpa using hf) (by simp)

/-- Witness for C3: at `max_items = 2` the feed loop's value is already
fixed at fuel 5. -/
theorem c3_paging_contracts_witness :
    2 + 1 ≤ 5
    ∧ fetch_feed_items_loop emptyBatchFeedSource "u" 2 5 [] none
        = fetch_feed_items_loop emptyBatchFeedSource "u" 2 (2 + 1) [] none :=
  ⟨by decide, c3_paging_contracts.2.1 emptyBatchFeedSource "u" 2 5 (by decide)⟩

/-- Claim C7: the candidate sequence handed to the action phase is the
stable sort of the built candidates by derived timestamp: the output is
non-decreasing in the timestamp, a permutation of the input, and on
index-decorated input it realizes the strict (timestamp, fetch-index)
lexicographic order, whose projection is exactly the handed sequence; the
derived timestamp is the parsed record-creation time, else the parsed
source-indexed time, else the fixed epoch sentinel `0` — never `now`. -/
theorem c7_ordering_stable : ∀ (cs : List Cand) (env : Env) (post : Post),
    (sortCandidates cs).Pairwise (fun a b => a.time ≤ b.time)
    ∧ (sortCandidates cs).Perm cs
    ∧ (pySortKey (fun p => Cand.time (Prod.snd p)) (decorate 0 cs)).map Prod.snd
        = sortCandidates cs
    ∧ (pySortKey (fun p => Cand.time (Prod.snd p)) (decorate 0 cs)).Pairwise
        (keyIdxLt Cand.time)
    ∧ robust_post_time env post
        = (match (if truthyS (post.record.bind PostRecord.createdAt) then
              parse_dt env ((post.record.bind PostRecord.createdAt).getD "")
            else none) with
          | some t => t
          | none =>
            match (if truthyS post.indexedAt then
                parse_dt env (post.indexedAt.getD "") else none) with
            | some t => t
            | none => 0) := by
  intro cs env post
  refine ⟨pairwise_pySortKey Cand.time cs, pySortKey_perm Cand.time cs, ?_,
    pairwise_keyIdxLt_pySortKey Cand.time (pairwise_idx_decorate 0 cs),
    robust_post_time_cases env post⟩
  rw [pySortKey_map Cand.time Prod.snd (decorate 0 cs), map_snd_decorate]
  rfl

/-! ## Helper lemmas: do_reposts under an all-succeeding client -/

theorem do_reposts_success_made {env : Env} {remote : Remote} {cfg : Config}
    {state : BotState} {feedUri : String} {excl : List String}
    (hr : ∀ u c, remote.repostCreate u c ≠ none)
    (hl : ∀ u c, remote.likeCreate u c = true) :
    (do_reposts env remote cfg state feedUri excl).made
      = min cfg.maxPerRun (candidatesOf env remote cfg state feedUri excl).length := by
  have h := @actionLoop_success_made env remote cfg hr hl
      (sortCandidates (candidatesOf env remote cfg state feedUri excl))
      ⟨state.reposts, alreadyRepostedSet remote cfg state,
        alreadyLikedSet remote cfg state, 0, []⟩ (Nat.zero_le _)
  calc (do_reposts env remote cfg state feedUri excl).made
      = (actionLoop env remote cfg
          (sortCandidates (candidatesOf env remote cfg state feedUri excl))
          ⟨state.reposts, alreadyRepostedSet remote cfg state,
            alreadyLikedSet remote cfg state, 0, []⟩).made := rfl
    _ = min cfg.maxPerRun
          (0 + (sortCandidates (candidatesOf env remote cfg state feedUri excl)).length) := h
    _ = min cfg.maxPerRun (candidatesOf env remote cfg state feedUri excl).length := by
        rw [Nat.zero_add]
        exact congrArg (min cfg.maxPerRun) ((pySortKey_perm Cand.time _).length_eq)

theorem do_reposts_success_reposts {env : Env} {remote : Remote} {cfg : Config}
    {state : BotState} {feedUri : String} {excl : List String}
    (hr : ∀ u c, remote.repostCreate u c ≠ none)
    (hl : ∀ u c, remote.likeCreate u c = true) :
    (do_reposts env remote cfg state feedUri excl).state.reposts
      = state.reposts
        ++ ((sortCandidates (candidatesOf env remote cfg state feedUri excl)).take
            cfg.maxPerRun).map (entryOf env remote) := by
  have h := @actionLoop_success_reposts env remote cfg hr hl
      (sortCandidates (candidatesOf env remote cfg state feedUri excl))
      ⟨state.reposts, alreadyRepostedSet remote cfg state,
        alreadyLikedSet remote cfg state, 0, []⟩ (Nat.zero_le _)
  calc (do_reposts env remote cfg state feedUri excl).state.reposts
      = (actionLoop env remote cfg
          (sortCandidates (candidatesOf env remote cfg state feedUri excl))
          ⟨state.reposts, alreadyRepostedSet remote cfg state,
            alreadyLikedSet remote cfg state, 0, []⟩).reposts := rfl
    _ = _ := by rw [h, Nat.sub_zero]

theorem not_mem_knownStateSet {state : BotState} {u : String}
    (h : ∀ e ∈ state.reposts, e.post_uri ≠ some u) :
    u ∉ knownStateSet state := by
  intro hmem
  rcases List.mem_filterMap.mp hmem with ⟨e, he, hsome⟩
  revert hsome
  split
  · rename_i htr
    intro hsome
    injection hsome with hu
    cases hpu : e.post_uri with
    | none => rw [hpu] at htr; exact absurd htr (by simp [truthyS])
    | some s =>
      rw [hpu] at hu
      simp only [Option.getD_some] at hu
      exact h e he (by rw [hpu, hu])
  · intro hsome
    exact Option.noConfusion hsome

/-- Counterexample to claim C1: the same previously untracked uri, appearing
on two pages of the same source in one run, is acted upon twice and the
persisted history ends up with two entries for that `post_uri`. -/
theorem c1_dedup_counterexample :
    (do_reposts envRun remoteDupFeed {} {} "feed" []).made = 2
    ∧ ((do_reposts envRun remoteDupFeed {} {} "feed" []).state.reposts.countP
        (fun e => e.post_uri == some "at://u1")) = 2 := by
  decide

/-- Claim C1 (amended): a post uri already tracked in the persisted history
at run start is excluded from the candidate set even if it reappears in a
later page of the same source within the same run; a uri not yet tracked is
not deduplicated within the run (see the counterexample). -/
theorem c1_tracked_uri_excluded : ∀ (env : Env) (remote : Remote) (cfg : Config)
    (state : BotState) (feedUri : String) (excl : List String)
    (e : RepostEntry) (u : String),
    e ∈ state.reposts → e.post_uri = some u → u ≠ "" →
    ∀ c ∈ candidatesOf env remote cfg state feedUri excl, Cand.uri c ≠ u := by
  intro env remote cfg state feedUri excl e u hmem huri hne c hc
  have hknown : u ∈ knownStateSet state := by
    unfold knownStateSet
    refine List.mem_filterMap.mpr ⟨e, hmem, ?_⟩
    rw [huri]
    simp [truthyS, hne]
  have halready : u ∈ alreadyRepostedSet remote cfg state := by
    unfold alreadyRepostedSet
    exact mem_unionSet.mpr (Or.inr hknown)
  unfold candidatesOf at hc
  rcases List.mem_filterMap.mp hc with ⟨it, hit, hcand⟩
  intro hequ
  exact candOfItem_uri_not_already hcand (hequ ▸ halready)

/-- Witness for (amended) C1: with `at://u1` already in the persisted
history, neither of its two page appearances yields a candidate. -/
theorem c1_tracked_uri_excluded_witness :
    ({ post_uri := some "at://u1" } : RepostEntry) ∈ stateTracked.reposts
    ∧ ({ post_uri := some "at://u1" } : RepostEntry).post_uri = some "at://u1"
    ∧ "at://u1" ≠ ""
    ∧ ∀ c ∈ candidatesOf envRun remoteDupFeed {} stateTracked "feed" [],
        Cand.uri c ≠ "at://u1" :=
  ⟨by decide, rfl, by decide,
    c1_tracked_uri_excluded envRun remoteDupFeed {} stateTracked "feed" []
      { post_uri := some "at://u1" } "at://u1" (by decide) rfl (by decide)⟩

/-- Counterexample to claim C2: three candidates by one author are all
actioned in one run — there is no per-author cap (a cap of 1 would action
exactly one). -/
theorem c2_author_cap_counterexample :
    feedSameAuthor.all
      (fun it => (it.post.bind Post.author).bind AuthorObj.did == some "did:alice")
    ∧ (do_reposts envRun remoteSameAuthor {} {} "feed" []).made = 3
    ∧ ¬ (do_reposts envRun remoteSameAuthor {} {} "feed" []).made ≤ 1 := by
  decide

/-- Claim C2 (amended): the action phase enforces no per-author cap: when
all remote calls succeed and the per-run budget covers the candidate list,
every candidate is actioned, however many share one author. -/
theorem c2_no_author_cap : ∀ (env : Env) (remote : Remote) (cfg : Config)
    (state : BotState) (feedUri : String) (excl : List String),
    (∀ u c, remote.repostCreate u c ≠ none) →
    (∀ u c, remote.likeCreate u c = true) →
    (candidatesOf env remote cfg state feedUri excl).length ≤ cfg.maxPerRun →
    (do_reposts env remote cfg state feedUri excl).made
        = (candidatesOf env remote cfg state feedUri excl).length
    ∧ ∀ c ∈ candidatesOf env remote cfg state feedUri excl,
        ∃ e ∈ (do_reposts env remote cfg state feedUri excl).state.reposts,
          e.post_uri = some (Cand.uri c) := by
  intro env remote cfg state feedUri excl hr hl hlen
  have hslen : (sortCandidates (candidatesOf env remote cfg state feedUri excl)).length
      = (candidatesOf env remote cfg state feedUri excl).length :=
    (pySortKey_perm Cand.time _).length_eq
  constructor
  · rw [do_reposts_success_made hr hl]
    exact Nat.min_eq_right hlen
  · intro c hc
    have hcs : c ∈ sortCandidates (candidatesOf env remote cfg state feedUri excl) :=
      mem_pySortKey.mpr hc
    have htake : (sortCandidates (candidatesOf env remote cfg state feedUri excl)).take
        cfg.maxPerRun = sortCandidates (candidatesOf env remote cfg state feedUri excl) :=
      List.take_of_length_le (by rw [hslen]; exact hlen)
    refine ⟨entryOf env remote c, ?_, rfl⟩
    rw [do_reposts_success_reposts hr hl, htake]
    exact List.mem_append_right _ (List.mem_map_of_mem (entryOf env remote) hcs)

/-- Witness for (amended) C2: the three same-author candidates are all
actioned under an all-succeeding client and the default budget. -/
theorem c2_no_author_cap_witness :
    (∀ u c, remoteSameAuthor.repostCreate u c ≠ none)
    ∧ (∀ u c, remoteSameAuthor.likeCreate u c = true)
    ∧ (candidatesOf envRun remoteSameAuthor {} {} "feed" []).length
        ≤ Config.maxPerRun {}
    ∧ ((do_reposts envRun remoteSameAuthor {} {} "feed" []).made
        = (candidatesOf envRun remoteSameAuthor {} {} "feed" []).length
      ∧ ∀ c ∈ candidatesOf envRun remoteSameAuthor {} {} "feed" [],
          ∃ e ∈ (do_reposts envRun remoteSameAuthor {} {} "feed" []).state.reposts,
            e.post_uri = some (Cand.uri c)) :=
  ⟨fun u c => Option.some_ne_none _, fun u c => rfl, by decide,
    c2_no_author_cap envRun remoteSameAuthor {} {} "feed" []
      (fun u c => Option.some_ne_none _) (fun u c => rfl) (by decide)⟩

/-- Claim C6: on a run where every remote call succeeds, the action engine
commits exactly `min(budget, number of candidates)` repost actions, namely
the entries for the first `budget` elements of the time-sorted candidate
list — each actioned candidate is at least as old as every unactioned
one. -/
theorem c6_budget_oldest : ∀ (env : Env) (remote : Remote) (cfg : Config)
    (state : BotState) (feedUri : String) (excl : List String),
    (∀ u c, remote.repostCreate u c ≠ none) →
    (∀ u c, remote.likeCreate u c = true) →
    (do_reposts env remote cfg state feedUri excl).made
        = min cfg.maxPerRun (candidatesOf env remote cfg state feedUri excl).length
    ∧ (do_reposts env remote cfg state feedUri excl).state.reposts
        = state.reposts
          ++ ((sortCandidates (candidatesOf env remote cfg state feedUri excl)).take
              cfg.maxPerRun).map (entryOf env remote)
    ∧ ∀ a ∈ (sortCandidates (candidatesOf env remote cfg state feedUri excl)).take
          cfg.maxPerRun,
        ∀ b ∈ (sortCandidates (candidatesOf env remote cfg state feedUri excl)).drop
          cfg.maxPerRun,
        Cand.time a ≤ Cand.time b := by
  intro env remote cfg state feedUri excl hr hl
  exact ⟨do_reposts_success_made hr hl, do_reposts_success_reposts hr hl,
    pairwise_take_drop (pairwise_pySortKey Cand.time _) cfg.maxPerRun⟩

/-- Witness for C6: budget 2, five valid candidates — exactly 2 actions,
for the two oldest candidates (times 10 and 20). -/
theorem c6_budget_oldest_witness :
    (∀ u c, remoteFive.repostCreate u c ≠ none)
    ∧ (∀ u c, remoteFive.likeCreate u c = true)
    ∧ (do_reposts envRun remoteFive cfgBudget2 {} "feed" []).made = 2
    ∧ ((sortCandidates (candidatesOf envRun remoteFive cfgBudget2 {} "feed" [])).take
        2).map Cand.uri = ["at://u1", "at://u4"]
    ∧ ((do_reposts envRun remoteFive cfgBudget2 {} "feed" []).made
        = min cfgBudget2.maxPerRun
            (candidatesOf envRun remoteFive cfgBudget2 {} "feed" []).length
      ∧ (do_reposts envRun remoteFive cfgBudget2 {} "feed" []).state.reposts
        = BotState.reposts {}
          ++ ((sortCandidates (candidatesOf envRun remoteFive cfgBudget2 {} "feed" [])).take
              cfgBudget2.maxPerRun).map (entryOf envRun remoteFive)
      ∧ ∀ a ∈ (sortCandidates (candidatesOf envRun remoteFive cfgBudget2 {} "feed" [])).take
            cfgBudget2.maxPerRun,
          ∀ b ∈ (sortCandidates (candidatesOf envRun remoteFive cfgBudget2 {} "feed" [])).drop
            cfgBudget2.maxPerRun,
          Cand.time a ≤ Cand.time b) :=
  ⟨fun u c => Option.some_ne_none _, fun u c => rfl, by decide, by decide,
    c6_budget_oldest envRun remoteFive cfgBudget2 {} "feed" []
      (fun u c => Option.some_ne_none _) (fun u c => rfl)⟩

/-- Claim C10: for a uri whose repost create succeeds but whose like create
always raises (and which is in no pre-existing dedup set), the run leaves no
trace of the remotely committed repost: no history entry is appended for it,
it enters neither seen cache, and no like write is ever committed for it. -/
theorem c10_like_failure_no_trace : ∀ (env : Env) (remote : Remote) (cfg : Config)
    (state : BotState) (feedUri : String) (excl : List String) (u : String),
    (∀ c, remote.repostCreate u c ≠ none) →
    (∀ c, remote.likeCreate u c = false) →
    (∀ e ∈ state.reposts, e.post_uri ≠ some u) →
    u ∉ state.seen_reposted →
    u ∉ state.seen_liked →
    u ∉ (build_viewer_sets_from_own_feed remote cfg.dupCheckAuthorFeedLimit).1 →
    u ∉ (build_viewer_sets_from_own_feed remote cfg.dupCheckAuthorFeedLimit).2 →
    (∀ e ∈ (do_reposts env remote cfg state feedUri excl).state.reposts,
        e.post_uri ≠ some u)
    ∧ u ∉ (do_reposts env remote cfg state feedUri excl).state.seen_reposted
    ∧ u ∉ (do_reposts env remote cfg state feedUri excl).state.seen_liked
    ∧ ∀ w ∈ (do_reposts env remote cfg state feedUri excl).writes,
        ∀ cid, w ≠ .like u cid := by
  intro env remote cfg state feedUri excl u hrep hlike hhist hsr hsl hv1 hv2
  have har : u ∉ alreadyRepostedSet remote cfg state := by
    intro h
    rcases mem_unionSet.mp h with h | h
    · rcases mem_unionSet.mp h with h | h
      · exact hv1 h
      · exact hsr h
    · exact not_mem_knownStateSet hhist h
  have hal : u ∉ alreadyLikedSet remote cfg state := by
    intro h
    rcases mem_unionSet.mp h with h | h
    · exact hv2 h
    · exact hsl h
  have hnt := @actionLoop_noTrace env remote cfg u hlike
      (sortCandidates (candidatesOf env remote cfg state feedUri excl))
      ⟨state.reposts, alreadyRepostedSet remote cfg state,
        alreadyLikedSet remote cfg state, 0, []⟩
      ⟨hhist, har, hal, by simp⟩
  obtain ⟨r1, r2, r3, r4⟩ := hnt
  refine ⟨r1, ?_, ?_, r4⟩
  · intro hmem
    have h2 := mem_dedupKeepFirst.mp (mem_of_mem_take hmem)
    rcases List.mem_append.mp h2 with h | h
    · exact r2 h
    · exact hsr h
  · intro hmem
    have h2 := mem_dedupKeepFirst.mp (mem_of_mem_take hmem)
    rcases List.mem_append.mp h2 with h | h
    · exact r3 h
    · exact hsl h

/-- Witness for C10: the repost of `at://u1` commits but its like raises —
afterwards the state records nothing about `at://u1`. -/
theorem c10_like_failure_no_trace_witness :
    (∀ c, remoteLikeFails.repostCreate "at://u1" c ≠ none)
    ∧ (∀ c, remoteLikeFails.likeCreate "at://u1" c = false)
    ∧ ((∀ e ∈ (do_reposts envRun remoteLikeFails {} {} "feed" []).state.reposts,
          e.post_uri ≠ some "at://u1")
      ∧ "at://u1" ∉ (do_reposts envRun remoteLikeFails {} {} "feed" []).state.seen_reposted
      ∧ "at://u1" ∉ (do_reposts envRun remoteLikeFails {} {} "feed" []).state.seen_liked
      ∧ ∀ w ∈ (do_reposts envRun remoteLikeFails {} {} "feed" []).writes,
          ∀ cid, w ≠ .like "at://u1" cid) :=
  ⟨fun c => Option.some_ne_none _, fun c => rfl,
    c10_like_failure_no_trace envRun remoteLikeFails {} {} "feed" [] "at://u1"
      (fun c => Option.some_ne_none _) (fun c => rfl)
      (fun e he => absurd he (List.not_mem_nil e))
      (List.not_mem_nil _) (List.not_mem_nil _) (by decide) (by decide)⟩

/-- Claim C4 (amended): missing credentials abort before the state is even
loaded — no writes, nothing persisted, in-memory state untouched; an
unresolvable exclude-list link aborts with no writes and no persistence,
the in-memory state exactly as loaded; an unresolvable feed link aborts
before any repost/like and before persistence, but only after cleanup: the
only committed writes are remote deletes, and the in-memory history is the
loaded one with cleaned entries removed. -/
theorem c4_config_error_aborts : ∀ (env : Env) (remote : Remote) (cfg : Config)
    (stored : Option BotState) (fuel : Nat) (r : RunResult),
    mainRun env remote cfg stored fuel = some r →
    (r.outcome = .missingCreds →
      r.writes = [] ∧ r.saved = none ∧ r.finalState = none)
    ∧ (r.outcome = .badExcludeList →
      r.writes = [] ∧ r.saved = none ∧ r.finalState = some (loadStateT stored))
    ∧ (r.outcome = .badFeedLink →
      r.saved = none
      ∧ (∀ w ∈ r.writes, ∃ a b c, w = .deleteRecord a b c)
      ∧ r.finalState = some { loadStateT stored with
          reposts := (cleanup_old_reposts env remote cfg
            (loadStateT stored).reposts).1 }) := by
  intro env remote cfg stored fuel r h
  unfold mainRun at h
  split at h
  · injection h with h
    subst h
    refine ⟨fun _ => ⟨rfl, rfl, rfl⟩, fun hout => ?_, fun hout => ?_⟩ <;>
      simp at hout
  · split at h
    · rename_i r2 heq
      injection h with h
      subst h
      revert heq
      split
      · split
        · intro heq
          injection heq with heq
          subst heq
          refine ⟨fun hout => ?_, fun _ => ⟨rfl, rfl, rfl⟩, fun hout => ?_⟩ <;>
            simp at hout
        · intro heq
          exact absurd heq (by simp)
      · intro heq
        exact absurd heq (by simp)
    · exact Option.noConfusion h
    · split at h
      · injection h with h
        subst h
        refine ⟨fun hout => ?_, fun hout => ?_,
          fun _ => ⟨rfl, cleanup_old_reposts_writes, rfl⟩⟩ <;>
          simp at hout
      · injection h with h
        subst h
        refine ⟨fun hout => ?_, fun hout => ?_, fun hout => ?_⟩ <;>
          simp at hout

/-- Witness for (amended) C4: missing credentials give a run with no
writes, no persisted state, and no loaded state at all. -/
theorem c4_config_error_aborts_witness :
    mainRun envClean remoteOkBase {} none 1 = some rNoCreds
    ∧ ((rNoCreds.outcome = .missingCreds →
        rNoCreds.writes = [] ∧ rNoCreds.saved = none ∧ rNoCreds.finalState = none)
      ∧ (rNoCreds.outcome = .badExcludeList →
        rNoCreds.writes = [] ∧ rNoCreds.saved = none
        ∧ rNoCreds.finalState = some (loadStateT none))
      ∧ (rNoCreds.outcome = .badFeedLink →
        rNoCreds.saved = none
        ∧ (∀ w ∈ rNoCreds.writes, ∃ a b c, w = .deleteRecord a b c)
        ∧ rNoCreds.finalState = some { loadStateT none with
            reposts := (cleanup_old_reposts envClean remoteOkBase {}
              (loadStateT none).reposts).1 })) :=
  ⟨rfl, c4_config_error_aborts envClean remoteOkBase {} none 1 rNoCreds rfl⟩

/-- Counterexample to claim C4: with an unresolvable feed link, `main`
returns on a configuration error, yet a remote delete has already been
committed and the in-memory history has already been mutated. -/
theorem c4_config_error_counterexample :
    (mainRun envClean remoteOkBase cfgBadFeed (some stateExpired) 1).map
        RunResult.outcome = some .badFeedLink
    ∧ (mainRun envClean remoteOkBase cfgBadFeed (some stateExpired) 1).map
        RunResult.writes = some [.deleteRecord "ME" "app.bsky.feed.repost" "r1"]
    ∧ (mainRun envClean remoteOkBase cfgBadFeed (some stateExpired) 1).map
        RunResult.saved = some none
    ∧ (mainRun envClean remoteOkBase cfgBadFeed (some stateExpired) 1).map
        RunResult.finalState = some (some {})
    ∧ some (some ({} : BotState))
        ≠ some (some (loadStateT (some stateExpired))) := by
  decide
